import Mathlib

/-!
Verification of the Bilman project analyzer and fix engine.

The Python sources (src/project_analyzer.py, src/fix_engine.py) are shallowly
embedded below.  File trees are finite lists of (path, content, size) entries
plus an optional parsed package manifest; each analyzer probe and each fix
rule of the source is translated into a total Lean function over that model.
Character-level scanning (the regex rewrites of the fix engine, the port
probe of the analyzer) is implemented over `List Char` with an explicit fuel
argument so that every definition is executable and kernel-reducible.
-/

set_option maxRecDepth 16384

namespace Bilman

/-! ## String utilities (Python `in`, `.lower()`, `.startswith`, `.endswith`) -/

/-- Python whitespace class `\s` restricted to ASCII, as used by `re`. -/
def pyWs (c : Char) : Bool :=
  c = ' ' || c = '\t' || c = '\n' || c = '\r' || c = '\x0b' || c = '\x0c'

/-- Lower-case a string character by character (Python `str.lower()`). -/
def lowerStr (s : String) : String := String.mk (s.data.map Char.toLower)

/-- Boolean list-prefix test. -/
def listPrefixOf : List Char → List Char → Bool
  | [], _ => true
  | _ :: _, [] => false
  | p :: ps, c :: cs => p = c && listPrefixOf ps cs

/-- Boolean substring test on character lists. -/
def listInfixOf (pat : List Char) : List Char → Bool
  | [] => listPrefixOf pat []
  | c :: cs => listPrefixOf pat (c :: cs) || listInfixOf pat cs

/-- Python `pat in s` substring test. -/
def containsStr (s pat : String) : Bool := listInfixOf pat.data s.data

/-- Python `s.startswith(pat)`. -/
def startsWithStr (s pat : String) : Bool := listPrefixOf pat.data s.data

/-- Python `s.endswith(pat)`. -/
def endsWithStr (s pat : String) : Bool := listPrefixOf pat.data.reverse s.data.reverse

/-- Basename of a slash-separated relative path (`os.path.basename`). -/
def baseName (p : String) : String :=
  String.mk (((p.data.reverse).takeWhile (fun c => c ≠ '/')).reverse)

/-- Digit-string to number, Python `int` on a nonempty digit run. -/
def digitsToNat (l : List Char) : Nat :=
  l.foldl (fun n c => 10 * n + (c.toNat - 48)) 0

/-! ## Data model: file trees and the parsed package manifest -/

/-- One file of the project tree: relative path, text content, byte size. -/
structure FileEntry where
  path : String
  content : String
  size : Nat
deriving DecidableEq

/-- Parsed `package.json` (the fields the source reads and writes). -/
structure PackageJson where
  main : Option String
  scripts : List (String × String)
  dependencies : List (String × String)
  devDependencies : List (String × String)
deriving DecidableEq

/-- Project tree: the parsed package manifest (when `package.json` exists)
plus all other files. -/
structure Tree where
  packageJson : Option PackageJson
  files : List FileEntry
deriving DecidableEq

def lookupFile (t : Tree) (p : String) : Option FileEntry :=
  t.files.find? (fun f => f.path = p)

def hasFile (t : Tree) (p : String) : Bool := (lookupFile t p).isSome

/-- Write `content` to `path`: replace the entry in place, or append a new one
(`open(path, 'w')` followed by `write`). -/
def writeFile (t : Tree) (p c : String) : Tree :=
  if hasFile t p then
    { t with files := t.files.map (fun f => if f.path = p then ⟨p, c, c.length⟩ else f) }
  else
    { t with files := t.files ++ [⟨p, c, c.length⟩] }

/-- Rendering of the parsed manifest back to text (`json.dump`); the analyzer
scans this text for hardcoded-value substrings. -/
def dumpPairs : List (String × String) → String
  | [] => ""
  | (k, v) :: [] => "\x22" ++ k ++ "\x22: \x22" ++ v ++ "\x22"
  | (k, v) :: rest => "\x22" ++ k ++ "\x22: \x22" ++ v ++ "\x22, " ++ dumpPairs rest

def dumpPkg (pkg : PackageJson) : String :=
  "\x7b\x22main\x22: " ++
    (match pkg.main with
      | some m => "\x22" ++ m ++ "\x22"
      | none => "null") ++
    ", \x22scripts\x22: \x7b" ++ dumpPairs pkg.scripts ++
    "\x7d, \x22dependencies\x22: \x7b" ++ dumpPairs pkg.dependencies ++
    "\x7d, \x22devDependencies\x22: \x7b" ++ dumpPairs pkg.devDependencies ++ "\x7d\x7d"

/-- Every file the directory walks can see: `package.json` rendered as text,
then the remaining files. -/
def allEntries (t : Tree) : List FileEntry :=
  (match t.packageJson with
    | some pkg => [⟨"package.json", dumpPkg pkg, (dumpPkg pkg).length⟩]
    | none => []) ++ t.files

/-! ## ProjectAnalyzer._detect_project_type -/

structure ProjectType where
  primary : String
  technologies : List String
  frameworks : List String
deriving DecidableEq

/-- Top-level directory listing check: some file with no directory component
whose name ends with `ext` (`any(f.endswith(ext) for f in os.listdir(...))`). -/
def anyTopLevelEndsWith (t : Tree) (ext : String) : Bool :=
  t.files.any (fun f => (!f.path.data.contains '/') && endsWithStr f.path ext)

/-- Node framework probe: Python `"express" in dependencies` is an exact
key-membership test on the merged dependencies/devDependencies dict. -/
def nodeFrameworks (pkg : PackageJson) : List String :=
  let ks := pkg.dependencies.map Prod.fst ++ pkg.devDependencies.map Prod.fst
  (if ks.contains "express" then ["express"] else []) ++
  (if ks.contains "react" then ["react"] else []) ++
  (if ks.contains "vue" then ["vue"] else []) ++
  (if ks.contains "angular" then ["angular"] else []) ++
  (if ks.contains "next" || ks.contains "nextjs" then ["nextjs"] else [])

/-- Python framework probe: case-insensitive substring test on the free-text
requirements list (`requirements = f.read().lower()`). -/
def pyFrameworks (req : String) : List String :=
  let r := lowerStr req
  (if containsStr r "django" then ["django"] else []) ++
  (if containsStr r "flask" then ["flask"] else []) ++
  (if containsStr r "fastapi" then ["fastapi"] else []) ++
  (if containsStr r "streamlit" then ["streamlit"] else [])

def hasPyManifest (t : Tree) : Bool :=
  hasFile t "requirements.txt" || hasFile t "setup.py" || hasFile t "pyproject.toml"

def hasPhpMarker (t : Tree) : Bool :=
  hasFile t "composer.json" || anyTopLevelEndsWith t ".php"

def hasGoMarker (t : Tree) : Bool := hasFile t "go.mod" || hasFile t "go.sum"

def hasRubyMarker (t : Tree) : Bool := hasFile t "Gemfile"

def hasHtmlMarker (t : Tree) : Bool := anyTopLevelEndsWith t ".html"

/-- Translation of `ProjectAnalyzer._detect_project_type`: sequential checks,
each later stack promoted to `primary` only when it is still `"unknown"`. -/
def detect_project_type (t : Tree) : ProjectType :=
  let p0 : ProjectType := ⟨"unknown", [], []⟩
  let p1 := match t.packageJson with
    | some pkg =>
        { p0 with primary := "nodejs",
                  technologies := p0.technologies ++ ["javascript"],
                  frameworks := p0.frameworks ++ nodeFrameworks pkg }
    | none => p0
  let p2 :=
    if hasPyManifest t then
      let pa := if p1.primary = "unknown" then { p1 with primary := "python" } else p1
      let pb := { pa with technologies := pa.technologies ++ ["python"] }
      let fw := match lookupFile t "requirements.txt" with
        | some f => pyFrameworks f.content
        | none => []
      { pb with frameworks := pb.frameworks ++ fw }
    else p1
  let p3 :=
    if hasPhpMarker t then
      let pa := if p2.primary = "unknown" then { p2 with primary := "php" } else p2
      { pa with technologies := pa.technologies ++ ["php"] }
    else p2
  let p4 :=
    if hasGoMarker t then
      let pa := if p3.primary = "unknown" then { p3 with primary := "go" } else p3
      { pa with technologies := pa.technologies ++ ["go"] }
    else p3
  let p5 :=
    if hasRubyMarker t then
      let pa := if p4.primary = "unknown" then { p4 with primary := "ruby" } else p4
      { pa with technologies := pa.technologies ++ ["ruby"] }
    else p4
  let p6 :=
    if hasHtmlMarker t then
      let pa := if p5.primary = "unknown" then { p5 with primary := "static" } else p5
      { pa with technologies := pa.technologies ++ ["html"] }
    else p5
  p6

/-! ## ProjectAnalyzer._analyze_structure (the `important_files` inventory) -/

/-- Split a path on `/`. -/
def splitSlash : List Char → List (List Char)
  | [] => [[]]
  | c :: cs =>
      let r := splitSlash cs
      if c = '/' then [] :: r
      else match r with
        | [] => [[c]]
        | a :: rest => (c :: a) :: rest

/-- Directory components of a relative path (everything but the basename). -/
def dirComponents (p : String) : List String :=
  ((splitSlash p.data).dropLast).map String.mk

/-- Fixed name list the structure walk flags as important. -/
def importantNames : List String :=
  "README.md" :: "readme.md" :: "README.txt" ::
  "package.json" :: "requirements.txt" :: "setup.py" ::
  "Dockerfile" :: "docker-compose.yml" ::
  "Makefile" :: "makefile" ::
  ".env" :: ".env.example" ::
  "config.json" :: "config.yml" :: "config.yaml" ::
  "app.py" :: "main.py" :: "index.js" :: "server.js" ::
  "index.html" :: "index.php" :: []

/-- Visibility filter of the structure walk: hidden and cache directories are
pruned, dotfiles other than `.env`/`.env.example` are skipped. -/
def structureVisible (p : String) : Bool :=
  (dirComponents p).all
    (fun d => !startsWithStr d "." && d ≠ "node_modules" && d ≠ "__pycache__" && d ≠ "vendor") &&
  (let b := baseName p
   !startsWithStr b "." || b = ".env" || b = ".env.example")

def importantFilesOf (t : Tree) : List String :=
  ((allEntries t).filter
    (fun f => structureVisible f.path && importantNames.contains (baseName f.path))).map (·.path)

/-! ## ProjectAnalyzer._analyze_configuration (the `environment_files` list) -/

def environmentFilesOf (t : Tree) : List String :=
  ((allEntries t).filter
    (fun f => startsWithStr (baseName f.path) ".env" ||
              containsStr (lowerStr (baseName f.path)) "environment")).map (·.path)

/-! ## ProjectAnalyzer._detect_port_config

Each probe pattern has the shape `kw.*?(\d+)` with `re.IGNORECASE`: a literal
keyword, a lazy non-newline gap, then a greedy digit group.  `findAllKw`
reproduces `re.findall`: leftmost non-overlapping matches, scanning resumes
after each match. -/

/-- Strip a lowercase literal prefix, comparing case-insensitively. -/
def stripPrefixCI : List Char → List Char → Option (List Char)
  | [], l => some l
  | _ :: _, [] => none
  | p :: ps, c :: cs => if p = c.toLower then stripPrefixCI ps cs else none

/-- Lazy gap of non-newline characters followed by a greedy digit run. -/
def lazyGapDigits : List Char → Option (List Char × List Char)
  | [] => none
  | c :: cs =>
      if c.isDigit then
        let ds := (c :: cs).takeWhile Char.isDigit
        some (ds, (c :: cs).drop ds.length)
      else if c = '\n' then none
      else lazyGapDigits cs

/-- Match `kw.*?(\d+)` at the head of the list, returning the digit group and
the remainder after the match. -/
def matchKwAt (kw l : List Char) : Option (List Char × List Char) :=
  match stripPrefixCI kw l with
  | none => none
  | some l1 => lazyGapDigits l1

/-- Findall for `kw.*?(\d+)` with explicit fuel (the list length suffices:
every step consumes at least one character). -/
def findAllKw (kw : List Char) : Nat → List Char → List (List Char)
  | 0, _ => []
  | _, [] => []
  | fuel + 1, c :: cs =>
      match matchKwAt kw (c :: cs) with
      | some (ds, rest) => ds :: findAllKw kw fuel rest
      | none => findAllKw kw fuel cs

/-- Keywords of the four probe patterns (`port`, `PORT`, `listen`, `server`);
under `re.IGNORECASE` the two port patterns coincide but both are run. -/
def portKws : List (List Char) :=
  ('p' :: 'o' :: 'r' :: 't' :: []) ::
  ('p' :: 'o' :: 'r' :: 't' :: []) ::
  ('l' :: 'i' :: 's' :: 't' :: 'e' :: 'n' :: []) ::
  ('s' :: 'e' :: 'r' :: 'v' :: 'e' :: 'r' :: []) :: []

/-- Port candidates of one file: every regex hit parsed with `int` and kept
iff it lies in the valid range `[1000, 65535]`. -/
def portsOfContent (c : String) : List Nat :=
  (portKws.map (fun kw =>
    (findAllKw kw c.data.length c.data).filterMap (fun ds =>
      let n := digitsToNat ds
      if 1000 ≤ n && n ≤ 65535 then some n else none))).flatten

def portMainFiles : List String :=
  "app.py" :: "main.py" :: "server.js" :: "index.js" :: "app.js" :: []

def detect_port_config (t : Tree) : Option (List Nat) :=
  let detected := (portMainFiles.map (fun name =>
    match lookupFile t name with
    | some f => portsOfContent f.content
    | none => [])).flatten
  if detected = [] then none else some detected.dedup

/-! ## ProjectAnalyzer._identify_potential_issues -/

structure Issue where
  type : String
  severity : String
  description : String
deriving DecidableEq

def hardcodedPatterns : List (String × String) :=
  ("localhost", "Hardcoded localhost references found") ::
  ("127.0.0.1", "Hardcoded local IP addresses found") ::
  ("password", "Potential hardcoded passwords found") ::
  ("secret", "Potential hardcoded secrets found") :: []

/-- File extensions the hardcoded-value scan reads. -/
def hardcodedScanExt (p : String) : Bool :=
  endsWithStr p ".py" || endsWithStr p ".js" || endsWithStr p ".json" ||
  endsWithStr p ".yml" || endsWithStr p ".yaml"

/-- First hardcoded pattern found in a file (the scan breaks after one hit per
file); this walk performs no directory pruning. -/
def firstHardcodedIssue (f : FileEntry) : Option Issue :=
  if hardcodedScanExt f.path then
    let c := lowerStr f.content
    match hardcodedPatterns.find? (fun pr => containsStr c pr.1) with
    | some pr => some ⟨"hardcoded_config", "medium", pr.2 ++ " in " ++ f.path⟩
    | none => none
  else none

def joinWith (sep : String) : List String → String
  | [] => ""
  | a :: [] => a
  | a :: rest => a ++ sep ++ joinWith sep rest

/-- Translation of `_identify_potential_issues`.  The method reads
`self.analysis_result` for the project type and the important-files list, but
`analyze` assigns `self.analysis_result` only after the result dict is fully
built, so during issue detection those reads see the **previous** run's
values: `prevPrimary` is `project_type.get("primary")` of the stale dict
(`none` on a fresh instance, where `analysis_result` is `{}`) and `prevImp`
the stale `structure["important_files"]` (`[]` on a fresh instance).  Only
the hardcoded-value scan and the size probe walk the current tree. -/
def identify_potential_issues (t : Tree) (prevPrimary : Option String)
    (prevImp : List String) : List Issue :=
  let part1 :=
    if prevPrimary = some "nodejs" then
      if (prevImp.map baseName).contains "package.json" then []
      else [⟨"missing_file", "high", "Missing package.json file for Node.js project"⟩]
    else if prevPrimary = some "python" then
      if prevImp.any (fun f => containsStr f "requirements.txt") ||
         prevImp.any (fun f => containsStr f "setup.py") then []
      else [⟨"missing_file", "medium", "Missing requirements.txt or setup.py for Python project"⟩]
    else []
  let part2 := (allEntries t).filterMap firstHardcodedIssue
  let part3 :=
    if (prevImp.filter (fun f => containsStr f ".env")) = [] then
      [⟨"missing_env", "low", "No environment configuration files found"⟩]
    else []
  let part4 :=
    let large := ((allEntries t).filter (fun f => 100 * 1024 * 1024 < f.size)).map (·.path)
    if large = [] then []
    else [⟨"large_files", "medium",
          "Large files found that may cause deployment issues: " ++ joinWith ", " (large.take 5)⟩]
  part1 ++ part2 ++ part3 ++ part4

/-! ## ProjectAnalyzer.analyze (the fields this verification uses) -/

structure Analysis where
  projectType : ProjectType
  importantFiles : List String
  environmentFiles : List String
  potentialIssues : List Issue
  portConfiguration : Option (List Nat)
deriving DecidableEq

/-- One `analyze` call on an instance whose stale `analysis_result` carries
`prevPrimary`/`prevImp` (see `identify_potential_issues`): all other fields
are computed from the current tree. -/
def analyzeWith (prevPrimary : Option String) (prevImp : List String)
    (t : Tree) : Analysis :=
  let pt := detect_project_type t
  let imp := importantFilesOf t
  ⟨pt, imp, environmentFilesOf t, identify_potential_issues t prevPrimary prevImp,
   detect_port_config t⟩

/-- Fresh-instance `analyze`: `deploy.py` constructs a new `ProjectAnalyzer`,
whose `analysis_result` starts as `{}`, so the stale reads yield no primary
and no important files. -/
def analyze (t : Tree) : Analysis := analyzeWith none [] t

/-! ## FixEngine: scanning primitives

Python `str.replace` and the literal `re.sub` rewrites scan left to right,
replacing non-overlapping occurrences; they are implemented with explicit
fuel (the input length suffices since every step consumes a character). -/

/-- Strip a literal prefix, case-sensitively. -/
def stripPrefixCS : List Char → List Char → Option (List Char)
  | [], l => some l
  | _ :: _, [] => none
  | p :: ps, c :: cs => if p = c then stripPrefixCS ps cs else none

/-- Python `str.replace(old, new)`: left-to-right, non-overlapping,
case-sensitive, every occurrence. -/
def replaceAllLit (old new : List Char) : Nat → List Char → List Char
  | 0, l => l
  | _, [] => []
  | fuel + 1, c :: cs =>
      match stripPrefixCS old (c :: cs) with
      | some rest => new ++ replaceAllLit old new fuel rest
      | none => c :: replaceAllLit old new fuel cs

def replaceAllStr (s old new : String) : String :=
  String.mk (replaceAllLit old.data new.data s.data.length s.data)

/-! ## FixEngine._fix_nodejs_main_file

Pattern 1 is `\.listen\(\s*(\d+)\s*\)`, pattern 2 is
`\.listen\(\s*process\.env\.PORT\s*\|\|\s*(\d+)\s*\)`; both rewrite to
`.listen(process.env.PORT || \1, "0.0.0.0")`. -/

def listenLit : String := ".listen("

def procEnvLit : String := "process.env.PORT"

def orOrLit : String := "||"

/-- Match pattern 1 at the head, returning the digit group and the rest. -/
def matchListen1 (l : List Char) : Option (List Char × List Char) :=
  match stripPrefixCS listenLit.data l with
  | none => none
  | some l1 =>
      let l2 := l1.dropWhile pyWs
      let ds := l2.takeWhile Char.isDigit
      if ds = [] then none
      else
        match (l2.drop ds.length).dropWhile pyWs with
        | ')' :: rest => some (ds, rest)
        | _ => none

/-- Match pattern 2 at the head, returning the digit group and the rest. -/
def matchListen2 (l : List Char) : Option (List Char × List Char) :=
  match stripPrefixCS listenLit.data l with
  | none => none
  | some l1 =>
      match stripPrefixCS procEnvLit.data (l1.dropWhile pyWs) with
      | none => none
      | some l2 =>
          match stripPrefixCS orOrLit.data (l2.dropWhile pyWs) with
          | none => none
          | some l3 =>
              let l4 := l3.dropWhile pyWs
              let ds := l4.takeWhile Char.isDigit
              if ds = [] then none
              else
                match (l4.drop ds.length).dropWhile pyWs with
                | ')' :: rest => some (ds, rest)
                | _ => none

def listenReplPre : String := ".listen(process.env.PORT || "

def listenReplPost : String := ", \"0.0.0.0\")"

def listenRepl (ds : List Char) : List Char :=
  listenReplPre.data ++ ds ++ listenReplPost.data

def subListen (m : List Char → Option (List Char × List Char)) :
    Nat → List Char → List Char
  | 0, l => l
  | _, [] => []
  | fuel + 1, c :: cs =>
      match m (c :: cs) with
      | some (ds, rest) => listenRepl ds ++ subListen m fuel rest
      | none => c :: subListen m fuel cs

def hasMatch (m : List Char → Option (List Char × List Char)) : List Char → Bool
  | [] => false
  | c :: cs => (m (c :: cs)).isSome || hasMatch m cs

def nodejsAppendBlock : String :=
  "\n\n// Added by deployment fix\nconst PORT = process.env.PORT || 3000;\napp.listen(PORT, \"0.0.0.0\", () => \x7b\n  console.log(`Server running on port $\x7bPORT\x7d`);\n\x7d);\n"

/-- Content-and-ledger transformation of `_fix_nodejs_main_file`. -/
def fixNodejsMainFile (fname c : String) : String × List String :=
  let l := c.data
  let l1 :=
    if hasMatch matchListen1 l then subListen matchListen1 l.length l
    else if hasMatch matchListen2 l then subListen matchListen2 l.length l
    else l
  let s1 := String.mk l1
  let withBlock :=
    if !containsStr s1 listenLit && containsStr s1 "createServer" then
      (s1 ++ nodejsAppendBlock, ["Added proper port binding to Node.js app"])
    else (s1, ([] : List String))
  let d2 := if withBlock.1 ≠ c then ["Fixed port binding in " ++ baseName fname] else []
  (withBlock.1, withBlock.2 ++ d2)

/-! ## FixEngine._fix_nodejs_issues -/

/-- Candidate entry points probed when `main` does not exist. -/
def nodeEntryCandidates : List String :=
  "app.js" :: "server.js" :: "main.js" :: "index.js" :: []

/-- Candidate main files probed for the content fix (a different order). -/
def nodeMainCandidates : List String :=
  "app.js" :: "server.js" :: "index.js" :: "main.js" :: []

def fixNodejsIssues (t : Tree) : Tree × List String :=
  let pkgStep : Tree × List String :=
    match t.packageJson with
    | none => (t, [])
    | some pkg =>
        let r :=
          if (pkg.scripts.lookup "start").isSome then (pkg, ([] : List String))
          else
            let mf0 := pkg.main.getD "index.js"
            let mf := if hasFile t mf0 then mf0
                      else (nodeEntryCandidates.find? (fun f => hasFile t f)).getD mf0
            ({ pkg with scripts := pkg.scripts ++ [("start", "node " ++ mf)] },
             ["Added start script to package.json"])
        ({ t with packageJson := some r.1 }, r.2)
  let t1 := pkgStep.1
  match nodeMainCandidates.find? (fun f => hasFile t1 f) with
  | some f =>
      match lookupFile t1 f with
      | some e =>
          let r := fixNodejsMainFile f e.content
          let t2 := if r.1 ≠ e.content then writeFile t1 f r.1 else t1
          (t2, pkgStep.2 ++ r.2)
      | none => (t1, pkgStep.2)
  | none => (t1, pkgStep.2)

/-! ## FixEngine._fix_python_main_file and helpers -/

def quoteChar (c : Char) : Bool := c = '"' || c = '\x27'

/-- Generic leftmost non-overlapping substitution for a matcher that returns
the remainder after its match; the replacement is a fixed string. -/
def subFixed (m : List Char → Option (List Char)) (repl : List Char) :
    Nat → List Char → List Char
  | 0, l => l
  | _, [] => []
  | fuel + 1, c :: cs =>
      match m (c :: cs) with
      | some rest => repl ++ subFixed m repl fuel rest
      | none => c :: subFixed m repl fuel cs

def hasFixed (m : List Char → Option (List Char)) : List Char → Bool
  | [] => false
  | c :: cs => (m (c :: cs)).isSome || hasFixed m cs

def flaskPlainRun : String := "app.run()"

def flaskDebugRun : String := "app.run(debug=True)"

def flaskPlainRepl : String :=
  "app.run(host=\"0.0.0.0\", port=int(os.environ.get(\"PORT\", 5000)))"

def flaskDebugRepl : String :=
  "app.run(host=\"0.0.0.0\", port=int(os.environ.get(\"PORT\", 5000)), debug=False)"

def flaskHostLit : String := "app.run(host="

def localhostLit : String := "localhost"

/-- Match `app\.run\(host=['"]localhost['"]\)` at the head. -/
def matchFlaskHost (l : List Char) : Option (List Char) :=
  match stripPrefixCS flaskHostLit.data l with
  | none => none
  | some l1 =>
      match l1 with
      | q1 :: l2 =>
          if quoteChar q1 then
            match stripPrefixCS localhostLit.data l2 with
            | some (q2 :: ')' :: rest) => if quoteChar q2 then some rest else none
            | _ => none
          else none
      | [] => none

def envGetPortLit : String := "os.environ.get(\"PORT\""

def importOsLit : String := "import os"

/-- Flask branch of `_fix_python_main_file` as a content transformation. -/
def fixFlaskContent (c : String) : String × List String :=
  let r :=
    if containsStr c flaskPlainRun then
      (replaceAllStr c flaskPlainRun flaskPlainRepl, ["Fixed Flask app.run() for deployment"])
    else if containsStr c flaskDebugRun then
      (replaceAllStr c flaskDebugRun flaskDebugRepl, ["Fixed Flask app.run() for deployment"])
    else if hasFixed matchFlaskHost c.data then
      (String.mk (subFixed matchFlaskHost flaskPlainRepl.data c.data.length c.data),
       ["Fixed Flask app.run() for deployment"])
    else (c, [])
  if containsStr r.1 envGetPortLit && !containsStr r.1 importOsLit then
    ("import os\n" ++ r.1, r.2 ++ ["Added os import for PORT environment variable"])
  else r

def allowedHostsOld : String := "ALLOWED_HOSTS = []"

def allowedHostsNew : String := "ALLOWED_HOSTS = [\"*\"]  # Fixed for deployment"

def debugOld : String := "DEBUG = True"

def debugNew : String := "DEBUG = os.environ.get(\"DEBUG\", \"False\").lower() == \"true\""

/-- Content transformation of `_fix_django_settings`. -/
def fixDjangoSettingsContent (c : String) : String × List String :=
  let r1 :=
    if containsStr c allowedHostsOld then
      (replaceAllStr c allowedHostsOld allowedHostsNew, ["Fixed Django ALLOWED_HOSTS setting"])
    else (c, ([] : List String))
  if containsStr r1.1 debugOld then
    let c2 := replaceAllStr r1.1 debugOld debugNew
    let c3 := if !containsStr c2 importOsLit then "import os\n" ++ c2 else c2
    (c3, r1.2 ++ ["Fixed Django DEBUG setting for production"])
  else r1

/-- Tree-level `_fix_django_settings` applied to the sibling `settings.py`. -/
def fixDjangoSettingsT (t : Tree) : Tree × List String :=
  match lookupFile t "settings.py" with
  | some e =>
      let r := fixDjangoSettingsContent e.content
      (if r.1 ≠ e.content then writeFile t "settings.py" r.1 else t, r.2)
  | none => (t, [])

def uvicornLit : String := "uvicorn.run("

/-- Match `uvicorn\.run\([^)]*\)` at the head ( `[^)]` also spans newlines). -/
def matchUvicorn (l : List Char) : Option (List Char) :=
  match stripPrefixCS uvicornLit.data l with
  | none => none
  | some l1 =>
      match l1.dropWhile (fun c => c ≠ ')') with
      | ')' :: rest => some rest
      | _ => none

def uvicornRepl : String :=
  "uvicorn.run(app, host=\"0.0.0.0\", port=int(os.environ.get(\"PORT\", 8000)))"

def dunderMainLit : String := "__name__ == \"__main__\""

def pyAppendBlock : String :=
  "\n\n# Added by deployment fix\nif __name__ == \"__main__\":\n    import os\n    port = int(os.environ.get(\"PORT\", 8000))\n    print(f\"Starting server on port \x7bport\x7d\")\n"

/-- Tree-level `_fix_python_main_file` on one main file. -/
def fixPythonMainFileT (t : Tree) (a : Analysis) (fname : String) : Tree × List String :=
  match lookupFile t fname with
  | none => (t, [])
  | some e =>
      let c := e.content
      let fws := a.projectType.frameworks
      let branch : Tree × String × List String :=
        if fws.contains "flask" then
          let r := fixFlaskContent c
          (t, r.1, r.2)
        else if fws.contains "django" then
          let r := fixDjangoSettingsT t
          (r.1, c, r.2)
        else if fws.contains "fastapi" then
          let r :=
            if containsStr c uvicornLit then
              if hasFixed matchUvicorn c.data then
                (String.mk (subFixed matchUvicorn uvicornRepl.data c.data.length c.data),
                 ["Fixed FastAPI uvicorn configuration"])
              else (c, ([] : List String))
            else (c, [])
          let r2 :=
            if containsStr r.1 envGetPortLit && !containsStr r.1 importOsLit then
              ("import os\n" ++ r.1, r.2)
            else r
          (t, r2.1, r2.2)
        else (t, c, [])
      let gen :=
        if containsStr branch.2.1 dunderMainLit &&
           !containsStr branch.2.1 "app.run(" && !containsStr branch.2.1 uvicornLit &&
           !containsStr branch.2.1 ".serve_forever()" then
          (branch.2.1 ++ pyAppendBlock, ["Added basic server startup code"])
        else (branch.2.1, ([] : List String))
      let t2 := if gen.1 ≠ c then writeFile branch.1 fname gen.1 else branch.1
      (t2, branch.2.2 ++ gen.2)

def runPyTemplate : String :=
  "#!/usr/bin/env python3\n# Basic run script - Added by deployment fix\n\nimport os\nimport sys\nfrom pathlib import Path\n\ndef find_main_module():\n    \"\"\"Find the main application module\"\"\"\n    candidates = [\x27app.py\x27, \x27main.py\x27, \x27server.py\x27, \x27wsgi.py\x27]\n    \n    for candidate in candidates:\n        if Path(candidate).exists():\n            return candidate.replace(\x27.py\x27, \x27\x27)\n    \n    return None\n\ndef main():\n    \"\"\"Main entry point\"\"\"\n    print(\"Starting application...\")\n    \n    # Set environment variables\n    os.environ.setdefault(\x27HOST\x27, \x270.0.0.0\x27)\n    os.environ.setdefault(\x27PORT\x27, \x278000\x27)\n    \n    # Try to find and import main module\n    main_module = find_main_module()\n    if main_module:\n        try:\n            __import__(main_module)\n            print(f\"Started \x7bmain_module\x7d\")\n        except Exception as e:\n            print(f\"Failed to start \x7bmain_module\x7d: \x7be\x7d\")\n            sys.exit(1)\n    else:\n        print(\"No main application module found\")\n        sys.exit(1)\n\nif __name__ == \"__main__\":\n    main()\n"

def createPythonRunScript (t : Tree) : Tree × List String :=
  (writeFile t "run.py" runPyTemplate, ["Created Python run script"])

def pyMainFiles : List String := "app.py" :: "main.py" :: "server.py" :: "run.py" :: []

def fixPythonIssues (t : Tree) (a : Analysis) : Tree × List String :=
  let loop := pyMainFiles.foldl
    (fun acc f =>
      if hasFile acc.1 f then
        let r := fixPythonMainFileT acc.1 a f
        (r.1, acc.2 ++ r.2)
      else acc)
    (t, ([] : List String))
  if pyMainFiles.any (fun f => hasFile loop.1 f) then loop
  else
    let r := createPythonRunScript loop.1
    (r.1, loop.2 ++ r.2)

/-! ## FixEngine._fix_php_issues -/

def htaccessTemplate : String :=
  "# Added by deployment fix\nRewriteEngine On\nRewriteCond %\x7bREQUEST_FILENAME\x7d !-d\nRewriteCond %\x7bREQUEST_FILENAME\x7d !-f\nRewriteRule ^(.+)$ index.php [QSA,L]\n"

def fixPhpIssues (t : Tree) : Tree × List String :=
  if hasFile t ".htaccess" then (t, [])
  else (writeFile t ".htaccess" htaccessTemplate, ["Created .htaccess file for PHP application"])

/-! ## FixEngine._fix_port_binding / _fix_file_bindings

Each context pattern is `kw\s*[=:]\s*["']?OLD["']?` with `re.IGNORECASE`; the
replacement maps the matched span through the case-sensitive
`str.replace(OLD, NEW)`. -/

/-- Match one assignment context at the head, returning the matched length. -/
def matchCtxLen (kw old : List Char) (l : List Char) : Option Nat :=
  match stripPrefixCI kw l with
  | none => none
  | some l1 =>
      let w1 := (l1.takeWhile pyWs).length
      match l1.drop w1 with
      | [] => none
      | op :: l3 =>
          if op = '=' || op = ':' then
            let w2 := (l3.takeWhile pyWs).length
            let l4 := l3.drop w2
            let q1 : Nat × List Char :=
              match l4 with
              | q :: rest => if quoteChar q then (1, rest) else (0, l4)
              | [] => (0, [])
            match stripPrefixCI old q1.2 with
            | none => none
            | some l6 =>
                let nq2 : Nat :=
                  match l6 with
                  | q :: _ => if quoteChar q then 1 else 0
                  | [] => 0
                some (kw.length + w1 + 1 + w2 + q1.1 + old.length + nq2)
          else none

/-- Leftmost non-overlapping substitution of assignment contexts; each matched
span is rewritten by the case-sensitive literal replacement. -/
def subCtx (kw old new : List Char) : Nat → List Char → List Char
  | 0, l => l
  | _, [] => []
  | fuel + 1, c :: cs =>
      match matchCtxLen kw old (c :: cs) with
      | some n =>
          replaceAllLit old new n ((c :: cs).take n) ++ subCtx kw old new fuel ((c :: cs).drop n)
      | none => c :: subCtx kw old new fuel cs

def hasCtx (kw old : List Char) : List Char → Bool
  | [] => false
  | c :: cs => (matchCtxLen kw old (c :: cs)).isSome || hasCtx kw old cs

def ctxKws : List (List Char) :=
  ('h' :: 'o' :: 's' :: 't' :: []) ::
  ('b' :: 'i' :: 'n' :: 'd' :: []) ::
  ('l' :: 'i' :: 's' :: 't' :: 'e' :: 'n' :: []) :: []

def bindingPairs : List (List Char × List Char) :=
  (localhostLit.data, ('0' :: '.' :: '0' :: '.' :: '0' :: '.' :: '0' :: [])) ::
  (('1' :: '2' :: '7' :: '.' :: '0' :: '.' :: '0' :: '.' :: '1' :: []),
   ('0' :: '.' :: '0' :: '.' :: '0' :: '.' :: '0' :: [])) :: []

/-- Content transformation of `_fix_file_bindings`: both loopback literals,
each against the three context keywords, applied in sequence. -/
def fixBindList (l : List Char) : List Char :=
  bindingPairs.foldl
    (fun acc pr =>
      ctxKws.foldl
        (fun acc2 kw =>
          if hasCtx kw pr.1 acc2 then subCtx kw pr.1 pr.2 acc2.length acc2 else acc2)
        acc)
    l

def fixBindContent (c : String) : String := String.mk (fixBindList c.data)

def bindingExts : List String := ".py" :: ".js" :: ".php" :: ".rb" :: ".go" :: []

/-- Walk filter of `_fix_port_binding`: matching extension, and not inside a
pruned directory. -/
def portBindingEligible (p : String) : Bool :=
  bindingExts.any (fun e => endsWithStr p e) &&
  (dirComponents p).all (fun d => d ≠ "node_modules" && d ≠ "__pycache__" && d ≠ ".git")

/-- Per-file action of `_fix_port_binding`: the new entry and the ledger
entries it contributes.  Files are independent, so the walk is a map. -/
def portBindStep (f : FileEntry) : FileEntry × List String :=
  if portBindingEligible f.path then
    let c2 := fixBindContent f.content
    if c2 ≠ f.content then
      ((⟨f.path, c2, c2.length⟩ : FileEntry), ["Fixed host binding in " ++ f.path])
    else (f, ([] : List String))
  else (f, [])

def fixPortBinding (t : Tree) : Tree × List String :=
  ({ t with files := t.files.map (fun f => (portBindStep f).1) },
   (t.files.map (fun f => (portBindStep f).2)).flatten)

/-! ## FixEngine._fix_environment_config / _fix_hardcoded_configs /
_create_startup_script -/

def envTemplate : String :=
  "# Environment Configuration - Added by deployment fix\nNODE_ENV=production\nDEBUG=false\nPORT=8000\nHOST=0.0.0.0\n"

def fixEnvironmentConfig (t : Tree) (a : Analysis) : Tree × List String :=
  if a.environmentFiles = [] then
    (writeFile t ".env" envTemplate, ["Created .env file with deployment configuration"])
  else (t, [])

def guideHeader : String :=
  "# Deployment Configuration Notes\n\n## Hardcoded Values Detected\nThe following files contain hardcoded values that should be moved to environment variables:\n\n"

def guideFooter : String :=
  "\n## Recommended Actions\n1. Move hardcoded values to environment variables\n2. Use process.env.VARIABLE_NAME (Node.js) or os.environ.get(\x27VARIABLE_NAME\x27) (Python)\n3. Update configuration files to use environment variables\n\n## Environment Variables to Set\n- DATABASE_URL\n- SECRET_KEY\n- API_KEYS\n- PORT\n- HOST\n"

def fixHardcodedConfigs (t : Tree) (a : Analysis) : Tree × List String :=
  let hc := a.potentialIssues.filter (fun i => i.type = "hardcoded_config")
  if hc = [] then (t, [])
  else
    let body := (hc.map (fun i => "- " ++ i.description ++ "\n")).foldl (· ++ ·) ""
    (writeFile t "DEPLOYMENT_NOTES.md" (guideHeader ++ body ++ guideFooter),
     ["Created deployment configuration guide"])

def nodeStartTemplate : String :=
  "#!/bin/bash\n# Node.js Application Startup Script - Added by deployment fix\n\necho \"Starting Node.js application...\"\n\n# Install dependencies if node_modules doesn\x27t exist\nif [ ! -d \"node_modules\" ]; then\n    echo \"Installing dependencies...\"\n    npm install\nfi\n\n# Start the application\necho \"Starting server...\"\nnpm start\n"

def djangoStartTemplate : String :=
  "#!/bin/bash\n# Django Application Startup Script - Added by deployment fix\n\necho \"Starting Django application...\"\n\n# Install dependencies\nif [ -f \"requirements.txt\" ]; then\n    echo \"Installing dependencies...\"\n    pip install -r requirements.txt\nfi\n\n# Run migrations\necho \"Running migrations...\"\npython manage.py migrate --noinput\n\n# Collect static files\necho \"Collecting static files...\"\npython manage.py collectstatic --noinput\n\n# Start the server\necho \"Starting server...\"\npython manage.py runserver 0.0.0.0:8000\n"

def flaskStartTemplate : String :=
  "#!/bin/bash\n# Flask Application Startup Script - Added by deployment fix\n\necho \"Starting Flask application...\"\n\n# Install dependencies\nif [ -f \"requirements.txt\" ]; then\n    echo \"Installing dependencies...\"\n    pip install -r requirements.txt\nfi\n\n# Start the application\necho \"Starting server...\"\npython app.py\n"

def genericPyStartTemplate : String :=
  "#!/bin/bash\n# Python Application Startup Script - Added by deployment fix\n\necho \"Starting Python application...\"\n\n# Install dependencies\nif [ -f \"requirements.txt\" ]; then\n    echo \"Installing dependencies...\"\n    pip install -r requirements.txt\nfi\n\n# Find and start main application\nif [ -f \"main.py\" ]; then\n    python main.py\nelif [ -f \"app.py\" ]; then\n    python app.py\nelif [ -f \"server.py\" ]; then\n    python server.py\nelse\n    echo \"No main application file found\"\n    exit 1\nfi\n"

def createNodejsStartup (t : Tree) : Tree × List String :=
  (writeFile t "start.sh" nodeStartTemplate, ["Created Node.js startup script"])

def createPythonStartup (t : Tree) (a : Analysis) : Tree × List String :=
  let fws := a.projectType.frameworks
  let content :=
    if fws.contains "django" then djangoStartTemplate
    else if fws.contains "flask" then flaskStartTemplate
    else genericPyStartTemplate
  (writeFile t "start.sh" content, ["Created Python startup script"])

def createStartupScript (t : Tree) (a : Analysis) : Tree × List String :=
  if a.projectType.primary = "nodejs" then createNodejsStartup t
  else if a.projectType.primary = "python" then createPythonStartup t a
  else (t, [])

/-! ## FixEngine.apply_fixes -/

/-- One run of `apply_fixes` without the engine's accumulated ledger: the new
tree and the entries appended during this call, in rule order. -/
def applyFixesRun (t : Tree) (a : Analysis) : Tree × List String :=
  let s1 :=
    if a.projectType.primary = "nodejs" then fixNodejsIssues t
    else if a.projectType.primary = "python" then fixPythonIssues t a
    else if a.projectType.primary = "php" then fixPhpIssues t
    else (t, [])
  let s2 := fixPortBinding s1.1
  let s3 := fixEnvironmentConfig s2.1 a
  let s4 := fixHardcodedConfigs s3.1 a
  let s5 := createStartupScript s4.1 a
  (s5.1, s1.2 ++ s2.2 ++ s3.2 ++ s4.2 ++ s5.2)

/-- Full `apply_fixes` on an engine whose `fixes_applied` ledger currently
holds `ledger0`: returns the boolean result (`len(self.fixes_applied) > 0`),
the mutated tree, and the engine's new ledger. -/
def apply_fixes (ledger0 : List String) (t : Tree) (a : Analysis) :
    Bool × Tree × List String :=
  let r := applyFixesRun t a
  let L := ledger0 ++ r.2
  (decide (0 < L.length), r.1, L)

/-- Analyze-then-fix composition used to re-run the engine on a fixed tree. -/
def runOnce (t : Tree) : Tree × List String := applyFixesRun t (analyze t)

/-- Ledger entries of the second of two consecutive fresh-engine runs. -/
def secondDelta (t : Tree) : List String := (runOnce (runOnce t).1).2

/-! ## Error semantics of apply_fixes

Reads and writes may fail (permissions, encoding): `fR p` / `fW p` say
whether opening path `p` for reading / writing raises.  Rules that the source
wraps in their own try/except absorb the failure; the env-file,
configuration-guide, startup-script, run-script and `.htaccess` writes are
unguarded, so their failures propagate to the top-level handler of
`apply_fixes`, which stops and returns `False`.  A rule result is
`(tree, entries, raised)`; ledger entries appended before a failing write are
kept, exactly as `self.fixes_applied.append` precedes `open(..., 'w')`. -/

/-- Error-aware main-file part of `_fix_nodejs_issues` (its own try/except:
a read or write failure leaves the tree unmodified; entries appended before
the failing write are kept). -/
def fixNodejsMainE (fR fW : String → Bool) (t1 : Tree) (d1 : List String) :
    Tree × List String :=
  match nodeMainCandidates.find? (fun f => hasFile t1 f) with
  | some f =>
      if fR f then (t1, d1)
      else
        match lookupFile t1 f with
        | some e =>
            let l := e.content.data
            let l1 :=
              if hasMatch matchListen1 l then subListen matchListen1 l.length l
              else if hasMatch matchListen2 l then subListen matchListen2 l.length l
              else l
            let s1 := String.mk l1
            let wb :=
              if !containsStr s1 listenLit && containsStr s1 "createServer" then
                (s1 ++ nodejsAppendBlock, ["Added proper port binding to Node.js app"])
              else (s1, ([] : List String))
            if wb.1 ≠ e.content then
              if fW f then (t1, d1 ++ wb.2)
              else (writeFile t1 f wb.1,
                    d1 ++ wb.2 ++ ["Fixed port binding in " ++ baseName f])
            else (t1, d1 ++ wb.2)
        | none => (t1, d1)
  | none => (t1, d1)

def fixNodejsIssuesE (fR fW : String → Bool) (t : Tree) : Tree × List String :=
  let pkgStep : Tree × List String :=
    match t.packageJson with
    | none => (t, [])
    | some pkg =>
        if fR "package.json" then (t, [])
        else
          let r :=
            if (pkg.scripts.lookup "start").isSome then (pkg, ([] : List String))
            else
              let mf0 := pkg.main.getD "index.js"
              let mf := if hasFile t mf0 then mf0
                        else (nodeEntryCandidates.find? (fun f => hasFile t f)).getD mf0
              ({ pkg with scripts := pkg.scripts ++ [("start", "node " ++ mf)] },
               ["Added start script to package.json"])
          if fW "package.json" then (t, r.2)
          else ({ t with packageJson := some r.1 }, r.2)
  fixNodejsMainE fR fW pkgStep.1 pkgStep.2

def portBindStepE (fR fW : String → Bool) (f : FileEntry) : FileEntry × List String :=
  if portBindingEligible f.path then
    if fR f.path then (f, [])
    else
      let c2 := fixBindContent f.content
      if c2 ≠ f.content then
        if fW f.path then (f, [])
        else ((⟨f.path, c2, c2.length⟩ : FileEntry), ["Fixed host binding in " ++ f.path])
      else (f, [])
  else (f, [])

def fixPortBindingE (fR fW : String → Bool) (t : Tree) : Tree × List String :=
  ({ t with files := t.files.map (fun f => (portBindStepE fR fW f).1) },
   (t.files.map (fun f => (portBindStepE fR fW f).2)).flatten)

def fixDjangoSettingsTE (fR fW : String → Bool) (t : Tree) : Tree × List String :=
  match lookupFile t "settings.py" with
  | some e =>
      if fR "settings.py" then (t, [])
      else
        let r := fixDjangoSettingsContent e.content
        if r.1 ≠ e.content then
          if fW "settings.py" then (t, r.2)
          else (writeFile t "settings.py" r.1, r.2)
        else (t, r.2)
  | none => (t, [])

def fixPythonMainFileTE (fR fW : String → Bool) (t : Tree) (a : Analysis)
    (fname : String) : Tree × List String :=
  match lookupFile t fname with
  | none => (t, [])
  | some e =>
      if fR fname then (t, [])
      else
        let c := e.content
        let fws := a.projectType.frameworks
        let branch : Tree × String × List String :=
          if fws.contains "flask" then
            let r := fixFlaskContent c
            (t, r.1, r.2)
          else if fws.contains "django" then
            let r := fixDjangoSettingsTE fR fW t
            (r.1, c, r.2)
          else if fws.contains "fastapi" then
            let r :=
              if containsStr c uvicornLit then
                if hasFixed matchUvicorn c.data then
                  (String.mk (subFixed matchUvicorn uvicornRepl.data c.data.length c.data),
                   ["Fixed FastAPI uvicorn configuration"])
                else (c, ([] : List String))
              else (c, [])
            let r2 :=
              if containsStr r.1 envGetPortLit && !containsStr r.1 importOsLit then
                ("import os\n" ++ r.1, r.2)
              else r
            (t, r2.1, r2.2)
          else (t, c, [])
        let gen :=
          if containsStr branch.2.1 dunderMainLit &&
             !containsStr branch.2.1 "app.run(" && !containsStr branch.2.1 uvicornLit &&
             !containsStr branch.2.1 ".serve_forever()" then
            (branch.2.1 ++ pyAppendBlock, ["Added basic server startup code"])
          else (branch.2.1, ([] : List String))
        if gen.1 ≠ c then
          if fW fname then (branch.1, branch.2.2 ++ gen.2)
          else (writeFile branch.1 fname gen.1, branch.2.2 ++ gen.2)
        else (branch.1, branch.2.2 ++ gen.2)

def fixPythonIssuesE (fR fW : String → Bool) (t : Tree) (a : Analysis) :
    Tree × List String × Bool :=
  let loop := pyMainFiles.foldl
    (fun acc f =>
      if hasFile acc.1 f then
        let r := fixPythonMainFileTE fR fW acc.1 a f
        (r.1, acc.2 ++ r.2)
      else acc)
    (t, ([] : List String))
  if pyMainFiles.any (fun f => hasFile loop.1 f) then (loop.1, loop.2, false)
  else if fW "run.py" then (loop.1, loop.2, true)
  else (writeFile loop.1 "run.py" runPyTemplate, loop.2 ++ ["Created Python run script"], false)

def fixPhpIssuesE (fW : String → Bool) (t : Tree) : Tree × List String × Bool :=
  if hasFile t ".htaccess" then (t, [], false)
  else if fW ".htaccess" then (t, [], true)
  else (writeFile t ".htaccess" htaccessTemplate,
        ["Created .htaccess file for PHP application"], false)

def fixEnvironmentConfigE (fW : String → Bool) (t : Tree) (a : Analysis) :
    Tree × List String × Bool :=
  if a.environmentFiles = [] then
    if fW ".env" then (t, [], true)
    else (writeFile t ".env" envTemplate,
          ["Created .env file with deployment configuration"], false)
  else (t, [], false)

def fixHardcodedConfigsE (fW : String → Bool) (t : Tree) (a : Analysis) :
    Tree × List String × Bool :=
  let hc := a.potentialIssues.filter (fun i => i.type = "hardcoded_config")
  if hc = [] then (t, [], false)
  else if fW "DEPLOYMENT_NOTES.md" then (t, [], true)
  else
    let body := (hc.map (fun i => "- " ++ i.description ++ "\n")).foldl (· ++ ·) ""
    (writeFile t "DEPLOYMENT_NOTES.md" (guideHeader ++ body ++ guideFooter),
     ["Created deployment configuration guide"], false)

def createStartupScriptE (fW : String → Bool) (t : Tree) (a : Analysis) :
    Tree × List String × Bool :=
  if a.projectType.primary = "nodejs" then
    if fW "start.sh" then (t, [], true)
    else (writeFile t "start.sh" nodeStartTemplate, ["Created Node.js startup script"], false)
  else if a.projectType.primary = "python" then
    let fws := a.projectType.frameworks
    let content :=
      if fws.contains "django" then djangoStartTemplate
      else if fws.contains "flask" then flaskStartTemplate
      else genericPyStartTemplate
    if fW "start.sh" then (t, [], true)
    else (writeFile t "start.sh" content, ["Created Python startup script"], false)
  else (t, [], false)

/-- Error-aware `apply_fixes`: rule order as in the source, top-level handler
returning `False` on the first propagated failure; mutations and ledger
entries performed before the failure persist. -/
def applyFixesE (fR fW : String → Bool) (ledger0 : List String) (t : Tree)
    (a : Analysis) : Bool × Tree × List String :=
  let s1 : Tree × List String × Bool :=
    if a.projectType.primary = "nodejs" then
      let r := fixNodejsIssuesE fR fW t
      (r.1, r.2, false)
    else if a.projectType.primary = "python" then fixPythonIssuesE fR fW t a
    else if a.projectType.primary = "php" then fixPhpIssuesE fW t
    else (t, [], false)
  let L1 := ledger0 ++ s1.2.1
  if s1.2.2 then (false, s1.1, L1)
  else
    let s2 := fixPortBindingE fR fW s1.1
    let L2 := L1 ++ s2.2
    let s3 := fixEnvironmentConfigE fW s2.1 a
    let L3 := L2 ++ s3.2.1
    if s3.2.2 then (false, s3.1, L3)
    else
      let s4 := fixHardcodedConfigsE fW s3.1 a
      let L4 := L3 ++ s4.2.1
      if s4.2.2 then (false, s4.1, L4)
      else
        let s5 := createStartupScriptE fW s4.1 a
        let L5 := L4 ++ s5.2.1
        if s5.2.2 then (false, s5.1, L5)
        else (decide (0 < L5.length), s5.1, L5)

/-! ## Auxiliary predicate for the host-rebinding frame statement -/

/-- Some loopback literal occurs inside some host/bind/listen assignment
context (the condition under which `_fix_file_bindings` rewrites anything). -/
def hasCtxAny (l : List Char) : Bool :=
  bindingPairs.any (fun pr => ctxKws.any (fun kw => hasCtx kw pr.1 l))

/-- Specification relation for one substitution pass of the host-rebinding
rule, following the claim's words: scanning left to right, a position where
no assignment-context match begins contributes its character unchanged — so
every occurrence of the loopback literal outside a matched context is left
character-for-character untouched — and where a match begins, exactly the
matched span is emitted with the case-sensitive literal replacement applied
to it, scanning resuming after the span. -/
inductive RebindSpec (kw old new : List Char) : List Char → List Char → Prop
  | nil : RebindSpec kw old new [] []
  | keep (c : Char) (l out : List Char) :
      matchCtxLen kw old (c :: l) = none →
      RebindSpec kw old new l out →
      RebindSpec kw old new (c :: l) (c :: out)
  | replaceSpan (l out : List Char) (n : Nat) :
      matchCtxLen kw old l = some n →
      RebindSpec kw old new (l.drop n) out →
      RebindSpec kw old new l (replaceAllLit old new n (l.take n) ++ out)

/-! ## Concrete fixtures used by counterexamples and witnesses -/

def tree0 : Tree := ⟨some ⟨none, [], [], []⟩, []⟩

def c5entry : String := "const app = express();\napp.listen(3000);\n"

def c5fixed : String :=
  "const app = express();\napp.listen(process.env.PORT || 3000, \"0.0.0.0\");\n"

def treeC3 : Tree := ⟨none, [⟨"pyproject.toml", "", 0⟩]⟩

def treeLarge : Tree := ⟨none, [⟨"big.bin", "", 104857601⟩]⟩

def treeC9 : Tree := ⟨none, [⟨"app.py", "PORT = 3000", 11⟩]⟩

def sentinelMarker : String := "Added by deployment fix"

def markerFile : String := "# Added by deployment fix\nCUSTOM"

def treeC4 : Tree := ⟨some ⟨none, [], [], []⟩, [⟨"start.sh", markerFile, 32⟩]⟩

def pkgC8 : PackageJson := ⟨none, [], [("express-session", "1.0")], []⟩

def treePyReq : Tree := ⟨none, [⟨"requirements.txt", "flask\n", 6⟩]⟩

/-! ## Helper lemmas about the file-system model -/

theorem list_lookup_append_none {β : Type} (k : String) (l1 l2 : List (String × β))
    (h : l1.lookup k = none) : (l1 ++ l2).lookup k = l2.lookup k := by
  induction l1 with
  | nil => rfl
  | cons a l ih =>
      obtain ⟨k', v⟩ := a
      cases hk : (k == k') with
      | true => exact absurd h (by simp [List.lookup, hk])
      | false =>
          have h2 : l.lookup k = none := by
            have h3 := h
            simp only [List.lookup, hk] at h3
            exact h3
          have goal2 := ih h2
          simp only [List.cons_append, List.lookup, hk]
          exact goal2

theorem list_lookup_append_self {β : Type} (k : String) (v : β) (l1 : List (String × β))
    (h : l1.lookup k = none) : (l1 ++ [(k, v)]).lookup k = some v := by
  rw [list_lookup_append_none k l1 [(k, v)] h]
  simp [List.lookup]

/-- Central characterization of a write: the written path now holds the new
entry, every other path is untouched. -/
theorem lookupFile_writeFile (t : Tree) (p c q : String) :
    lookupFile (writeFile t p c) q =
      if q = p then some ⟨p, c, c.length⟩ else lookupFile t q := by
  unfold writeFile
  by_cases h : hasFile t p = true
  · rw [if_pos h]
    unfold hasFile lookupFile at h
    show (t.files.map _).find? _ = _
    rw [List.find?_map]
    have hpred : ((fun f => decide (f.path = q)) ∘
        (fun f => if f.path = p then (⟨p, c, c.length⟩ : FileEntry) else f)) =
        (fun f => decide (f.path = q)) := by
      funext f
      by_cases hf : f.path = p
      · simp [Function.comp, hf]
      · simp [Function.comp, hf]
    rw [hpred]
    by_cases hq : q = p
    · subst hq
      rw [if_pos rfl]
      obtain ⟨e, he⟩ := Option.isSome_iff_exists.mp h
      rw [he]
      have hep : e.path = q := by
        have h4 := List.find?_some he
        simp at h4
        exact h4
      simp [hep]
    · rw [if_neg hq]
      show _ = lookupFile t q
      unfold lookupFile
      cases hh : t.files.find? (fun f => decide (f.path = q)) with
      | none => simp [hh]
      | some e =>
          have hep : e.path = q := by
            have h4 := List.find?_some hh
            simp at h4
            exact h4
          have hne : ¬ e.path = p := by
            rw [hep]
            exact hq
          simp [hh, hne]
  · rw [if_neg h]
    unfold hasFile lookupFile at h
    show (t.files ++ [(⟨p, c, c.length⟩ : FileEntry)]).find? _ = _
    rw [List.find?_append]
    have hn : t.files.find? (fun f => decide (f.path = p)) = none := by
      cases hh : t.files.find? (fun f => decide (f.path = p)) with
      | none => rfl
      | some e => rw [hh] at h; simp at h
    by_cases hq : q = p
    · subst hq
      rw [hn]
      simp [List.find?]
    · rw [if_neg hq]
      have h1 : t.files.find? (fun f => decide (f.path = q)) = lookupFile t q := rfl
      have h2 : List.find? (fun f => decide (f.path = q))
          [(⟨p, c, c.length⟩ : FileEntry)] = none := by
        simp only [List.find?]
        have hd : (decide ((⟨p, c, c.length⟩ : FileEntry).path = q)) = false := by
          simp only [decide_eq_false_iff_not]
          intro hc
          exact hq hc.symm
        rw [hd]
      rw [h2, h1, Option.or_none]

theorem lookupFile_writeFile_self (t : Tree) (p c : String) :
    lookupFile (writeFile t p c) p = some ⟨p, c, c.length⟩ := by
  rw [lookupFile_writeFile, if_pos rfl]

theorem lookupFile_writeFile_ne (t : Tree) (p c q : String) (h : q ≠ p) :
    lookupFile (writeFile t p c) q = lookupFile t q := by
  rw [lookupFile_writeFile, if_neg h]

theorem hasFile_writeFile (t : Tree) (p c q : String) :
    hasFile (writeFile t p c) q = (hasFile t q || decide (q = p)) := by
  unfold hasFile
  rw [lookupFile_writeFile]
  by_cases hq : q = p
  · simp [hq]
  · simp [hq]

theorem writeFile_packageJson (t : Tree) (p c : String) :
    (writeFile t p c).packageJson = t.packageJson := by
  unfold writeFile
  split <;> rfl

/-! ## Frame lemmas: each fix rule touches its own paths only -/

theorem portBindStep_path (f : FileEntry) : (portBindStep f).1.path = f.path := by
  unfold portBindStep
  dsimp only
  split
  · split <;> rfl
  · rfl

theorem lookupFile_fixPortBinding (t : Tree) (q : String) :
    lookupFile (fixPortBinding t).1 q =
      (lookupFile t q).map (fun f => (portBindStep f).1) := by
  unfold fixPortBinding lookupFile
  show (t.files.map _).find? _ = _
  rw [List.find?_map]
  have hpred : ((fun f => decide (f.path = q)) ∘ (fun f => (portBindStep f).1)) =
      (fun f => decide (f.path = q)) := by
    funext f
    simp [Function.comp, portBindStep_path f]
  rw [hpred]

theorem fixPortBinding_packageJson (t : Tree) :
    (fixPortBinding t).1.packageJson = t.packageJson := rfl

theorem portBindStepE_path (fR fW : String → Bool) (f : FileEntry) :
    (portBindStepE fR fW f).1.path = f.path := by
  unfold portBindStepE
  dsimp only
  split
  · split
    · rfl
    · split
      · split <;> rfl
      · rfl
  · rfl

theorem lookupFile_fixPortBindingE (fR fW : String → Bool) (t : Tree) (q : String) :
    lookupFile (fixPortBindingE fR fW t).1 q =
      (lookupFile t q).map (fun f => (portBindStepE fR fW f).1) := by
  unfold fixPortBindingE lookupFile
  show (t.files.map _).find? _ = _
  rw [List.find?_map]
  have hpred : ((fun f => decide (f.path = q)) ∘ (fun f => (portBindStepE fR fW f).1)) =
      (fun f => decide (f.path = q)) := by
    funext f
    simp [Function.comp, portBindStepE_path fR fW f]
  rw [hpred]

theorem hasFile_fixPortBindingE (fR fW : String → Bool) (t : Tree) (q : String) :
    hasFile (fixPortBindingE fR fW t).1 q = hasFile t q := by
  unfold hasFile
  rw [lookupFile_fixPortBindingE]
  cases lookupFile t q <;> rfl

theorem fixPortBindingE_packageJson (fR fW : String → Bool) (t : Tree) :
    (fixPortBindingE fR fW t).1.packageJson = t.packageJson := rfl

theorem fixEnvironmentConfig_lookup (t : Tree) (a : Analysis) (q : String)
    (h : q ≠ ".env") :
    lookupFile (fixEnvironmentConfig t a).1 q = lookupFile t q := by
  unfold fixEnvironmentConfig
  split
  · exact lookupFile_writeFile_ne t ".env" envTemplate q h
  · rfl

theorem fixEnvironmentConfig_packageJson (t : Tree) (a : Analysis) :
    (fixEnvironmentConfig t a).1.packageJson = t.packageJson := by
  unfold fixEnvironmentConfig
  split
  · exact writeFile_packageJson t ".env" envTemplate
  · rfl

theorem fixHardcodedConfigs_lookup (t : Tree) (a : Analysis) (q : String)
    (h : q ≠ "DEPLOYMENT_NOTES.md") :
    lookupFile (fixHardcodedConfigs t a).1 q = lookupFile t q := by
  unfold fixHardcodedConfigs
  dsimp only
  split
  · rfl
  · exact lookupFile_writeFile_ne t "DEPLOYMENT_NOTES.md" _ q h

theorem fixHardcodedConfigs_packageJson (t : Tree) (a : Analysis) :
    (fixHardcodedConfigs t a).1.packageJson = t.packageJson := by
  unfold fixHardcodedConfigs
  dsimp only
  split
  · rfl
  · exact writeFile_packageJson t "DEPLOYMENT_NOTES.md" _

theorem createStartupScript_lookup (t : Tree) (a : Analysis) (q : String)
    (h : q ≠ "start.sh") :
    lookupFile (createStartupScript t a).1 q = lookupFile t q := by
  unfold createStartupScript createNodejsStartup createPythonStartup
  dsimp only
  split
  · exact lookupFile_writeFile_ne t "start.sh" _ q h
  · split
    · exact lookupFile_writeFile_ne t "start.sh" _ q h
    · rfl

theorem createStartupScript_packageJson (t : Tree) (a : Analysis) :
    (createStartupScript t a).1.packageJson = t.packageJson := by
  unfold createStartupScript createNodejsStartup createPythonStartup
  dsimp only
  split
  · exact writeFile_packageJson t "start.sh" _
  · split
    · exact writeFile_packageJson t "start.sh" _
    · rfl

/-! ## Identity lemma for the host-context rewriter -/

theorem subCtx_id (kw old new : List Char) (fuel : Nat) (l : List Char)
    (h : hasCtx kw old l = false) : subCtx kw old new fuel l = l := by
  induction fuel generalizing l with
  | zero => cases l <;> rfl
  | succ fuel ih =>
      cases l with
      | nil => rfl
      | cons c cs =>
          have h1 : (matchCtxLen kw old (c :: cs)) = none := by
            cases hm : matchCtxLen kw old (c :: cs) with
            | none => rfl
            | some n => exact absurd h (by simp [hasCtx, hm])
          have h2 : hasCtx kw old cs = false := by
            have h3 := h
            simp only [hasCtx, Bool.or_eq_false_iff] at h3
            exact h3.2
          simp only [subCtx, h1]
          rw [ih cs h2]

theorem string_mk_data (c : String) : String.mk c.data = c := by
  cases c
  rfl

theorem fixBindContent_id (c : String) (h : hasCtxAny c.data = false) :
    fixBindContent c = c := by
  unfold fixBindContent fixBindList
  simp only [hasCtxAny, bindingPairs, ctxKws, List.any_cons, List.any_nil,
    Bool.or_eq_false_iff] at h
  obtain ⟨⟨h1, h2, h3, -⟩, ⟨h4, h5, h6, -⟩, -⟩ := h
  simp only [bindingPairs, ctxKws, List.foldl, h1, h2, h3, h4, h5, h6,
    Bool.false_eq_true, if_false]

theorem mem_ite_nil {α : Type} (c : Prop) [Decidable c] (a : α) (l : List α) :
    (a ∈ if c then l else []) ↔ c ∧ a ∈ l := by
  split
  · rename_i h
    simp [h]
  · rename_i h
    simp [h]

/-! ## Claim theorems -/

/-- C2 (confirmed): a tree with a Node manifest classifies as `nodejs`; with
only a Python manifest as `python`; `primary` is `unknown` exactly when no
recognized manifest and no loose php/markup file is present; the first
matching stack wins and later matches are added only to `technologies`. -/
theorem c2_stack_classification (t : Tree) :
    (t.packageJson.isSome = true → (detect_project_type t).primary = "nodejs") ∧
    (t.packageJson.isSome = false → hasPyManifest t = true →
      (detect_project_type t).primary = "python") ∧
    ((detect_project_type t).primary = "unknown" ↔
      (t.packageJson.isSome = false ∧ hasPyManifest t = false ∧ hasPhpMarker t = false ∧
       hasGoMarker t = false ∧ hasRubyMarker t = false ∧ hasHtmlMarker t = false)) ∧
    (t.packageJson.isSome = true → hasPyManifest t = true →
      (detect_project_type t).primary = "nodejs" ∧
      "python" ∈ (detect_project_type t).technologies) := by
  unfold detect_project_type
  rcases hp : t.packageJson with - | pkg <;>
  by_cases h2 : hasPyManifest t <;>
  by_cases h3 : hasPhpMarker t <;>
  by_cases h4 : hasGoMarker t <;>
  by_cases h5 : hasRubyMarker t <;>
  by_cases h6 : hasHtmlMarker t <;>
  simp [hp, h2, h3, h4, h5, h6]

/-- C2 witness: a tree holding only a package manifest classifies as nodejs,
and one holding only a requirements list classifies as python. -/
theorem c2_stack_classification_witness :
    (detect_project_type tree0).primary = "nodejs" ∧
    (detect_project_type treePyReq).primary = "python" :=
  ⟨(c2_stack_classification tree0).1 (by decide),
   (c2_stack_classification treePyReq).2.1 (by decide) (by decide)⟩

/-- C8 counterexample: `express` occurs as a substring of the declared
dependency key `express-session`, yet no framework is reported — the Node
probe is an exact key-membership test, not a substring test. -/
theorem c8_substring_cx :
    nodeFrameworks pkgC8 = [] ∧
    containsStr "express-session" "express" = true := by decide

/-- C8 (corrected): for a Node manifest, a framework is reported iff its exact
name (or, for nextjs, the key `next` or `nextjs`) is a key of the merged
dependency dicts; for the Python free-text list the test is a
case-insensitive substring test, as claimed. -/
theorem c8_membership (pkg : PackageJson) (req : String) :
    ("express" ∈ nodeFrameworks pkg ↔
      (pkg.dependencies.map Prod.fst ++ pkg.devDependencies.map Prod.fst).contains "express" = true) ∧
    ("react" ∈ nodeFrameworks pkg ↔
      (pkg.dependencies.map Prod.fst ++ pkg.devDependencies.map Prod.fst).contains "react" = true) ∧
    ("vue" ∈ nodeFrameworks pkg ↔
      (pkg.dependencies.map Prod.fst ++ pkg.devDependencies.map Prod.fst).contains "vue" = true) ∧
    ("angular" ∈ nodeFrameworks pkg ↔
      (pkg.dependencies.map Prod.fst ++ pkg.devDependencies.map Prod.fst).contains "angular" = true) ∧
    ("nextjs" ∈ nodeFrameworks pkg ↔
      ((pkg.dependencies.map Prod.fst ++ pkg.devDependencies.map Prod.fst).contains "next" ||
       (pkg.dependencies.map Prod.fst ++ pkg.devDependencies.map Prod.fst).contains "nextjs") = true) ∧
    ("django" ∈ pyFrameworks req ↔ containsStr (lowerStr req) "django" = true) ∧
    ("flask" ∈ pyFrameworks req ↔ containsStr (lowerStr req) "flask" = true) ∧
    ("fastapi" ∈ pyFrameworks req ↔ containsStr (lowerStr req) "fastapi" = true) ∧
    ("streamlit" ∈ pyFrameworks req ↔ containsStr (lowerStr req) "streamlit" = true) := by
  unfold nodeFrameworks pyFrameworks
  dsimp only
  simp only [List.mem_append, mem_ite_nil, List.mem_singleton, List.not_mem_nil]
  refine ⟨by simp, by simp, by simp, by simp, by simp, by simp, by simp, by simp, by simp⟩

/-- C8 witness: the Python-side substring test instantiated on a concrete
requirements text. -/
theorem c8_membership_witness :
    "django" ∈ pyFrameworks "Django==4.2" ↔
      containsStr (lowerStr "Django==4.2") "django" = true :=
  (c8_membership ⟨none, [], [], []⟩ "Django==4.2").2.2.2.2.2.1

/-- C7 counterexample: `host=LOCALHOST` is matched by the case-insensitive
context pattern, yet the case-sensitive `str.replace` leaves it unchanged —
the replacement step is not case-insensitive as claimed. -/
theorem c7_rebinding_cx :
    fixBindContent "host=LOCALHOST" = "host=LOCALHOST" ∧
    hasCtx ('h' :: 'o' :: 's' :: 't' :: []) localhostLit.data ("host=LOCALHOST").data = true ∧
    "host=LOCALHOST" ≠ "host=0.0.0.0" := by decide

/-- C7 helper: every assignment-context match consumes at least one
character (the `[=:]` operator is always part of the span). -/
theorem matchCtxLen_pos (kw old l : List Char) (n : Nat)
    (h : matchCtxLen kw old l = some n) : 1 ≤ n := by
  unfold matchCtxLen at h
  split at h
  · cases h
  · dsimp only at h
    split at h
    · cases h
    · split at h
      · split at h
        · cases h
        · cases h
          omega
      · cases h

/-- C7 helper: each substitution pass of `_fix_file_bindings` conforms to the
scan-and-replace specification on EVERY content, rewritten contexts
included: characters at positions where no context match begins — in
particular every out-of-context occurrence of the loopback literal — are
copied unchanged, and each matched span is emitted through the
case-sensitive literal replacement. -/
theorem subCtx_spec (kw old new : List Char) :
    ∀ (fuel : Nat) (l : List Char), l.length ≤ fuel →
      RebindSpec kw old new l (subCtx kw old new fuel l) := by
  intro fuel
  induction fuel with
  | zero =>
      intro l hl
      have h0 : l = [] := List.eq_nil_of_length_eq_zero (Nat.le_zero.mp hl)
      subst h0
      exact RebindSpec.nil
  | succ fuel ih =>
      intro l hl
      cases l with
      | nil => exact RebindSpec.nil
      | cons c cs =>
          cases hm : matchCtxLen kw old (c :: cs) with
          | none =>
              have hout : subCtx kw old new (fuel + 1) (c :: cs) =
                  c :: subCtx kw old new fuel cs := by
                simp only [subCtx, hm]
              rw [hout]
              exact RebindSpec.keep c cs _ hm (ih cs (Nat.le_of_succ_le_succ hl))
          | some n =>
              have hn := matchCtxLen_pos kw old (c :: cs) n hm
              have hout : subCtx kw old new (fuel + 1) (c :: cs) =
                  replaceAllLit old new n ((c :: cs).take n) ++
                    subCtx kw old new fuel ((c :: cs).drop n) := by
                simp only [subCtx, hm]
              rw [hout]
              refine RebindSpec.replaceSpan (c :: cs) _ n hm
                (ih ((c :: cs).drop n) ?_)
              rw [List.length_drop]
              have hl2 : cs.length + 1 ≤ fuel + 1 := hl
              omega

/-- C7 (corrected): every substitution pass of the rule conforms to the
scan-and-replace specification on every content (positions where no
assignment-context match begins pass through unchanged, so occurrences of
the literal outside a context are untouched even in contents that do get
rewritten; matched spans undergo the case-sensitive replacement); content
with no context match at all is returned verbatim; an exact-case literal in
a context becomes the wildcard address while out-of-context occurrences in
the same content stay; a matched context with other casing is left
unchanged. -/
theorem c7_host_rebinding :
    (∀ (kw old new : List Char) (c : String),
      RebindSpec kw old new c.data (subCtx kw old new c.data.length c.data)) ∧
    (∀ c : String, hasCtxAny c.data = false → fixBindContent c = c) ∧
    fixBindContent "host=localhost" = "host=0.0.0.0" ∧
    fixBindContent "Host: LocalHost" = "Host: LocalHost" ∧
    fixBindContent "a localhost b 127.0.0.1 c" = "a localhost b 127.0.0.1 c" ∧
    fixBindContent "see localhost; host=localhost # localhost again" =
      "see localhost; host=0.0.0.0 # localhost again" := by
  refine ⟨fun kw old new c => subCtx_spec kw old new c.data.length c.data (Nat.le_refl _),
          fun c h => fixBindContent_id c h, by decide, by decide, by decide, by decide⟩

/-- C7 witness: the conformance clause at the host/localhost pass on a
content it rewrites, and the no-context clause on a content it keeps. -/
theorem c7_host_rebinding_witness :
    RebindSpec ('h' :: 'o' :: 's' :: 't' :: []) localhostLit.data
      ('0' :: '.' :: '0' :: '.' :: '0' :: '.' :: '0' :: [])
      ("see localhost; host=localhost").data
      (subCtx ('h' :: 'o' :: 's' :: 't' :: []) localhostLit.data
        ('0' :: '.' :: '0' :: '.' :: '0' :: '.' :: '0' :: [])
        ("see localhost; host=localhost").data.length
        ("see localhost; host=localhost").data) ∧
    (hasCtxAny ("connect(\"localhost\")").data = false ∧
     fixBindContent "connect(\"localhost\")" = "connect(\"localhost\")") :=
  ⟨c7_host_rebinding.1 ('h' :: 'o' :: 's' :: 't' :: []) localhostLit.data
      ('0' :: '.' :: '0' :: '.' :: '0' :: '.' :: '0' :: []) "see localhost; host=localhost",
   by decide, c7_host_rebinding.2.1 "connect(\"localhost\")" (by decide)⟩

/-- C9 helper: every candidate produced for one file content lies in the
validated port range. -/
theorem portsOfContent_bounds (c : String) (p : Nat) (h : p ∈ portsOfContent c) :
    1000 ≤ p ∧ p ≤ 65535 := by
  unfold portsOfContent at h
  rw [List.mem_flatten] at h
  obtain ⟨l, hl, hpl⟩ := h
  rw [List.mem_map] at hl
  obtain ⟨kw, -, rfl⟩ := hl
  rw [List.mem_filterMap] at hpl
  obtain ⟨ds, -, hv⟩ := hpl
  dsimp only at hv
  split at hv
  · rename_i hcond
    cases hv
    simp only [Bool.and_eq_true, decide_eq_true_eq] at hcond
    exact hcond
  · cases hv

/-- C9 (confirmed): every port hint lies in `[1000, 65535]`, the hint list is
duplicate-free, and the probe result is absent exactly when no validated hint
was found. -/
theorem c9_port_hints (t : Tree) (r : List Nat)
    (h : (analyze t).portConfiguration = some r) :
    (∀ p ∈ r, 1000 ≤ p ∧ p ≤ 65535) ∧ r.Nodup ∧ r ≠ [] := by
  have h' : detect_port_config t = some r := h
  unfold detect_port_config at h'
  dsimp only at h'
  split at h'
  · cases h'
  · rename_i hd
    cases h'
    refine ⟨?_, List.nodup_dedup _, ?_⟩
    · intro p hp
      rw [List.mem_dedup, List.mem_flatten] at hp
      obtain ⟨l, hl, hpl⟩ := hp
      rw [List.mem_map] at hl
      obtain ⟨name, -, rfl⟩ := hl
      cases hf : lookupFile t name with
      | none => rw [hf] at hpl; cases hpl
      | some f =>
          rw [hf] at hpl
          exact portsOfContent_bounds f.content p hpl
    · intro he
      exact hd ((List.dedup_eq_nil _).mp he)

/-- C9 witness: a tree whose `app.py` reads `PORT = 3000` yields exactly the
hint list `[3000]`, which satisfies all three properties. -/
theorem c9_port_hints_witness :
    (analyze treeC9).portConfiguration = some [3000] ∧
    ((∀ p ∈ [3000], 1000 ≤ p ∧ p ≤ 65535) ∧ ([3000] : List Nat).Nodup ∧
     ([3000] : List Nat) ≠ []) :=
  ⟨by decide, c9_port_hints treeC9 [3000] (by decide)⟩

/-- C4 counterexample: a pre-existing `start.sh` whose content carries the
sentinel text `Added by deployment fix` is still overwritten with the
template, and the ledger entry is appended — no sentinel scan precedes the
write, so the append is not skipped. -/
theorem c4_sentinel_cx :
    containsStr markerFile sentinelMarker = true ∧
    (lookupFile (runOnce treeC4).1 "start.sh").map (fun f => f.content) =
      some nodeStartTemplate ∧
    markerFile ≠ nodeStartTemplate ∧
    "Created Node.js startup script" ∈ (runOnce treeC4).2 := by decide

/-- C4 (corrected): the block-writing rules perform no sentinel scan.  The
env-file rule is guarded only by the analysis's `environment_files` list;
when that list is empty the `.env` file is (re)written with the template
whatever its current content; the startup-script rule overwrites `start.sh`
unconditionally.  Blocks are not duplicated only because the writes replace
the whole file. -/
theorem c4_no_sentinel_scan (t : Tree) (a : Analysis) :
    (a.environmentFiles ≠ [] → fixEnvironmentConfig t a = (t, [])) ∧
    (a.environmentFiles = [] →
      (lookupFile (fixEnvironmentConfig t a).1 ".env").map (fun f => f.content) =
        some envTemplate ∧
      (fixEnvironmentConfig t a).2 = ["Created .env file with deployment configuration"]) ∧
    ((lookupFile (createNodejsStartup t).1 "start.sh").map (fun f => f.content) =
        some nodeStartTemplate ∧
     (createNodejsStartup t).2 = ["Created Node.js startup script"]) := by
  refine ⟨fun h => ?_, fun h => ⟨?_, ?_⟩, ?_, ?_⟩
  · unfold fixEnvironmentConfig
    rw [if_neg h]
  · unfold fixEnvironmentConfig
    rw [if_pos h]
    show (lookupFile (writeFile t ".env" envTemplate) ".env").map _ = _
    rw [lookupFile_writeFile_self]
    rfl
  · unfold fixEnvironmentConfig
    rw [if_pos h]
  · show (lookupFile (writeFile t "start.sh" nodeStartTemplate) "start.sh").map _ = _
    rw [lookupFile_writeFile_self]
    rfl
  · rfl

/-- C4 witness: on the marker-carrying fixture the env list is empty, and the
env rule writes the template `.env`. -/
theorem c4_no_sentinel_scan_witness :
    (analyze treeC4).environmentFiles = [] ∧
    ((lookupFile (fixEnvironmentConfig treeC4 (analyze treeC4)).1 ".env").map
        (fun f => f.content) = some envTemplate ∧
     (fixEnvironmentConfig treeC4 (analyze treeC4)).2 =
        ["Created .env file with deployment configuration"]) :=
  ⟨by decide, (c4_no_sentinel_scan treeC4 (analyze treeC4)).2.1 (by decide)⟩

/-- C10 (confirmed): the engine ledger is only appended to — the new ledger
extends the old one — and once any earlier call appended an entry, every
later `apply_fixes` call on the same engine returns `True`. -/
theorem c10_ledger_accumulates (L0 : List String) (t : Tree) (a : Analysis) :
    (∃ d, (apply_fixes L0 t a).2.2 = L0 ++ d) ∧
    (L0 ≠ [] → (apply_fixes L0 t a).1 = true) := by
  constructor
  · exact ⟨(applyFixesRun t a).2, rfl⟩
  · intro h
    show decide (0 < (L0 ++ (applyFixesRun t a).2).length) = true
    have hpos : 0 < (L0 ++ (applyFixesRun t a).2).length := by
      rw [List.length_append]
      cases L0 with
      | nil => exact absurd rfl h
      | cons x xs => simp
    exact decide_eq_true hpos

/-- C10 witness: an engine whose ledger already holds an entry returns `True`
even on a tree where the second call applies nothing new. -/
theorem c10_ledger_accumulates_witness :
    (apply_fixes ["x"] tree0 (analyze tree0)).1 = true :=
  (c10_ledger_accumulates ["x"] tree0 (analyze tree0)).2 (by decide)

/-- C1 counterexample: on a minimal Node tree the second fresh run still
appends a ledger entry (the startup-script rule re-fires), so the second
call's ledger is not empty. -/
theorem c1_idempotence_cx : secondDelta tree0 ≠ [] := by decide

/-- C1 (corrected): full idempotence fails — on every tree whose analysis
classifies it as nodejs or python, every `apply_fixes` call (hence also the
second of two consecutive runs) appends the startup-script ledger entry. -/
theorem c1_startup_rerun (t : Tree) (a : Analysis) :
    (a.projectType.primary = "nodejs" →
      "Created Node.js startup script" ∈ (applyFixesRun t a).2) ∧
    (a.projectType.primary = "python" →
      "Created Python startup script" ∈ (applyFixesRun t a).2) := by
  constructor
  · intro h
    simp [applyFixesRun, createStartupScript, createNodejsStartup, h, List.mem_append]
  · intro h
    simp [applyFixesRun, createStartupScript, createPythonStartup, h, List.mem_append]

/-- C1 witness: the startup-script entry is in the ledger of a run on the
minimal Node tree. -/
theorem c1_startup_rerun_witness :
    "Created Node.js startup script" ∈ (applyFixesRun tree0 (analyze tree0)).2 :=
  (c1_startup_rerun tree0 (analyze tree0)).1 (by decide)

/-- C3 helper: every issue built by the detector carries one of the three
severities and one of the four kind strings the code actually uses, whatever
stale analyzer state the detector reads. -/
theorem issue_closed_sets (t : Tree) (prevPrimary : Option String)
    (prevImp : List String) (i : Issue)
    (h : i ∈ identify_potential_issues t prevPrimary prevImp) :
    (i.severity = "high" ∨ i.severity = "medium" ∨ i.severity = "low") ∧
    (i.type = "missing_file" ∨ i.type = "hardcoded_config" ∨ i.type = "missing_env" ∨
     i.type = "large_files") := by
  unfold identify_potential_issues at h
  dsimp only at h
  simp only [List.mem_append] at h
  rcases h with ((h | h) | h) | h
  · split at h
    · split at h
      · cases h
      · have he := List.mem_singleton.mp h
        subst he
        exact ⟨Or.inl rfl, Or.inl rfl⟩
    · split at h
      · split at h
        · cases h
        · have he := List.mem_singleton.mp h
          subst he
          exact ⟨Or.inr (Or.inl rfl), Or.inl rfl⟩
      · cases h
  · rw [List.mem_filterMap] at h
    obtain ⟨f, -, hf⟩ := h
    unfold firstHardcodedIssue at hf
    dsimp only at hf
    split at hf
    · split at hf
      · cases hf
        exact ⟨Or.inr (Or.inl rfl), Or.inr (Or.inl rfl)⟩
      · cases hf
    · cases hf
  · split at h
    · have he := List.mem_singleton.mp h
      subst he
      exact ⟨Or.inr (Or.inr rfl), Or.inr (Or.inr (Or.inl rfl))⟩
    · cases h
  · split at h
    · cases h
    · have he := List.mem_singleton.mp h
      subst he
      exact ⟨Or.inr (Or.inl rfl), Or.inr (Or.inr (Or.inr rfl))⟩

/-- C3 counterexample: a fresh-instance run on a tree holding one oversized
file yields an issue of kind `large_files`, which is not in the claimed
closed set `missing_manifest / hardcoded_config / missing_env / large_file`
(the spec's `large_file` does not match the code's `large_files`; on a fresh
run the stale `analysis_result` read also makes `missing_env` fire and keeps
`missing_file` unreachable). -/
theorem c3_kind_names_cx :
    ((analyze treeLarge).potentialIssues.map (fun i => i.type)) =
      ["missing_env", "large_files"] ∧
    ¬ ("large_files" ∈
      (["missing_manifest", "hardcoded_config", "missing_env", "large_file"] :
        List String)) := by decide

/-- C3 (corrected): every produced issue has severity in `{high, medium,
low}` as claimed, and kind in the closed four-string set the code uses,
`{missing_file, hardcoded_config, missing_env, large_files}`, whatever stale
`analysis_result` the detector reads (on a fresh instance the stale reads
also make `missing_file` unreachable and `missing_env` unconditional; the
spec's names `missing_manifest` and `large_file` do not match the code). -/
theorem c3_issue_enums (t : Tree) (prevPrimary : Option String)
    (prevImp : List String) (i : Issue)
    (h : i ∈ (analyzeWith prevPrimary prevImp t).potentialIssues) :
    (i.severity = "high" ∨ i.severity = "medium" ∨ i.severity = "low") ∧
    (i.type = "missing_file" ∨ i.type = "hardcoded_config" ∨ i.type = "missing_env" ∨
     i.type = "large_files") :=
  issue_closed_sets t prevPrimary prevImp i h

/-- C3 witness: the missing-env issue a fresh-instance run produces on the
`pyproject.toml` fixture satisfies both closed-set constraints. -/
theorem c3_issue_enums_witness :
    ((⟨"missing_env", "low",
        "No environment configuration files found"⟩ : Issue).severity = "high" ∨
     (⟨"missing_env", "low",
        "No environment configuration files found"⟩ : Issue).severity = "medium" ∨
     (⟨"missing_env", "low",
        "No environment configuration files found"⟩ : Issue).severity = "low") ∧
    ((⟨"missing_env", "low",
        "No environment configuration files found"⟩ : Issue).type = "missing_file" ∨
     (⟨"missing_env", "low",
        "No environment configuration files found"⟩ : Issue).type = "hardcoded_config" ∨
     (⟨"missing_env", "low",
        "No environment configuration files found"⟩ : Issue).type = "missing_env" ∨
     (⟨"missing_env", "low",
        "No environment configuration files found"⟩ : Issue).type = "large_files") :=
  c3_issue_enums treeC3 none []
    ⟨"missing_env", "low", "No environment configuration files found"⟩
    (by decide)

/-- Helper: a present package manifest always classifies the tree as nodejs
(the first stack wins and later stacks never displace it). -/
theorem detect_primary_nodejs (t : Tree) (h : t.packageJson.isSome = true) :
    (detect_project_type t).primary = "nodejs" := by
  rcases hpk : t.packageJson with - | pkg
  · rw [hpk] at h
    cases h
  · unfold detect_project_type
    rw [hpk]
    cases h2 : hasPyManifest t <;> cases h3 : hasPhpMarker t <;>
    cases h4 : hasGoMarker t <;> cases h5 : hasRubyMarker t <;>
    cases h6 : hasHtmlMarker t <;> rfl

/-- C5 (confirmed): Scenario A — for a tree whose manifest has no start
script (and no `main` field) and whose `app.js` holds a bare `listen(3000)`
call, after the fix run the manifest's start script is `node app.js` and the
entry file reads the port from the environment with fallback 3000 and binds
to `0.0.0.0`. -/
theorem c5_scenario_a (scripts dep dev : List (String × String)) (n : Nat)
    (hs : scripts.lookup "start" = none) :
    let t : Tree := ⟨some ⟨none, scripts, dep, dev⟩, [⟨"app.js", c5entry, n⟩]⟩
    let r := (applyFixesRun t (analyze t)).1
    (∃ pkg : PackageJson, r.packageJson = some pkg ∧
      pkg.scripts.lookup "start" = some "node app.js") ∧
    (lookupFile r "app.js").map (fun f => f.content) = some c5fixed := by
  intro t r
  have hprimary : (analyze t).projectType.primary = "nodejs" :=
    detect_primary_nodejs t (by rfl)
  have hs1 : fixNodejsIssues t =
      (⟨some ⟨none, scripts ++ [("start", "node app.js")], dep, dev⟩,
        [⟨"app.js", c5fixed, c5fixed.length⟩]⟩,
       ["Added start script to package.json", "Fixed port binding in app.js"]) := by
    unfold fixNodejsIssues
    dsimp only
    rw [hs]
    dsimp only [Option.isSome]
    rfl
  have happ : applyFixesRun t (analyze t) =
      (let t2 : Tree := ⟨some ⟨none, scripts ++ [("start", "node app.js")], dep, dev⟩,
          [⟨"app.js", c5fixed, c5fixed.length⟩]⟩
       let s3 := fixEnvironmentConfig t2 (analyze t)
       let s4 := fixHardcodedConfigs s3.1 (analyze t)
       let s5 := createStartupScript s4.1 (analyze t)
       (s5.1, (["Added start script to package.json", "Fixed port binding in app.js"] :
          List String) ++ [] ++ s3.2 ++ s4.2 ++ s5.2)) := by
    unfold applyFixesRun
    rw [if_pos hprimary, hs1]
    rfl
  constructor
  · refine ⟨⟨none, scripts ++ [("start", "node app.js")], dep, dev⟩, ?_, ?_⟩
    · show r.packageJson = _
      unfold r
      rw [happ]
      dsimp only
      rw [createStartupScript_packageJson, fixHardcodedConfigs_packageJson,
          fixEnvironmentConfig_packageJson]
    · exact list_lookup_append_self "start" "node app.js" scripts hs
  · show (lookupFile r "app.js").map (fun f => f.content) = some c5fixed
    unfold r
    rw [happ]
    dsimp only
    rw [createStartupScript_lookup _ _ _ (by decide),
        fixHardcodedConfigs_lookup _ _ _ (by decide),
        fixEnvironmentConfig_lookup _ _ _ (by decide)]
    rfl

/-- C5 witness: the scenario instantiated with an empty manifest. -/
theorem c5_scenario_a_witness :
    (∃ pkg : PackageJson,
      ((applyFixesRun ⟨some ⟨none, [], [], []⟩, [⟨"app.js", c5entry, 40⟩]⟩
          (analyze ⟨some ⟨none, [], [], []⟩, [⟨"app.js", c5entry, 40⟩]⟩)).1).packageJson =
        some pkg ∧
      pkg.scripts.lookup "start" = some "node app.js") ∧
    (lookupFile ((applyFixesRun ⟨some ⟨none, [], [], []⟩, [⟨"app.js", c5entry, 40⟩]⟩
          (analyze ⟨some ⟨none, [], [], []⟩, [⟨"app.js", c5entry, 40⟩]⟩)).1) "app.js").map
        (fun f => f.content) = some c5fixed :=
  c5_scenario_a [] [] [] 40 (by decide)

/-! ## C6 lemmas: behavior of the error-aware rules -/

theorem hasFile_congr (t t' : Tree) (q : String) (h : t.files = t'.files) :
    hasFile t q = hasFile t' q := by
  unfold hasFile lookupFile
  rw [h]

theorem fixNodejsMainE_packageJson (fR fW : String → Bool) (t1 : Tree)
    (d1 : List String) :
    (fixNodejsMainE fR fW t1 d1).1.packageJson = t1.packageJson := by
  unfold fixNodejsMainE
  dsimp only
  repeat' split
  all_goals first | rfl | exact writeFile_packageJson t1 _ _

/-- The main-file fix never creates a file: it writes only to a main file
that the candidate probe found to exist. -/
theorem fixNodejsMainE_hasFile (fR fW : String → Bool) (t1 : Tree)
    (d1 : List String) (q : String) (hq : hasFile t1 q = false) :
    hasFile (fixNodejsMainE fR fW t1 d1).1 q = false := by
  unfold fixNodejsMainE
  cases hfind : nodeMainCandidates.find? (fun f => hasFile t1 f) with
  | none => exact hq
  | some f =>
      dsimp only
      split
      · exact hq
      · cases hlk : lookupFile t1 f with
        | none => exact hq
        | some e =>
            dsimp only
            repeat' split
            all_goals first
              | exact hq
              | (rw [hasFile_writeFile]
                 have hf : hasFile t1 f = true := by
                   have h5 := List.find?_some hfind
                   simpa using h5
                 have hqf : (decide (q = f)) = false := by
                   simp only [decide_eq_false_iff_not]
                   intro he
                   rw [he] at hq
                   rw [hq] at hf
                   cases hf
                 rw [hq, hqf]
                 rfl)

/-- The nodejs rule never creates a file. -/
theorem fixNodejsIssuesE_hasFile (fR fW : String → Bool) (t : Tree) (q : String)
    (hq : hasFile t q = false) :
    hasFile (fixNodejsIssuesE fR fW t).1 q = false := by
  unfold fixNodejsIssuesE
  dsimp only
  rcases hpk : t.packageJson with - | pkg <;> try dsimp only
  · exact fixNodejsMainE_hasFile fR fW t [] q hq
  · split
    · exact fixNodejsMainE_hasFile fR fW t [] q hq
    · split
      · exact fixNodejsMainE_hasFile fR fW t _ q hq
      · apply fixNodejsMainE_hasFile
        exact (hasFile_congr _ t q rfl).trans hq

/-- A failed `package.json` read is caught and skipped: the manifest stays
untouched while the rule continues. -/
theorem fixNodejsIssuesE_packageJson_readfail (fR fW : String → Bool) (t : Tree)
    (h : fR "package.json" = true) :
    (fixNodejsIssuesE fR fW t).1.packageJson = t.packageJson := by
  unfold fixNodejsIssuesE
  dsimp only
  rcases hpk : t.packageJson with - | pkg <;> try dsimp only
  · rw [fixNodejsMainE_packageJson]
    exact hpk
  · rw [if_pos h]
    rw [fixNodejsMainE_packageJson]
    exact hpk

theorem fixEnvironmentConfigE_noerr (t : Tree) (a : Analysis) :
    (fixEnvironmentConfigE (fun _ => false) t a).2.2 = false := by
  unfold fixEnvironmentConfigE
  split <;> rfl

theorem fixEnvironmentConfigE_packageJson (fW : String → Bool) (t : Tree) (a : Analysis) :
    (fixEnvironmentConfigE fW t a).1.packageJson = t.packageJson := by
  unfold fixEnvironmentConfigE
  split
  · split
    · rfl
    · exact writeFile_packageJson t _ _
  · rfl

theorem fixEnvironmentConfigE_err (t : Tree) (a : Analysis)
    (h : a.environmentFiles = []) :
    fixEnvironmentConfigE (fun p => p == ".env") t a = (t, [], true) := by
  unfold fixEnvironmentConfigE
  rw [if_pos h]
  rfl

theorem fixHardcodedConfigsE_noerr (t : Tree) (a : Analysis) :
    (fixHardcodedConfigsE (fun _ => false) t a).2.2 = false := by
  unfold fixHardcodedConfigsE
  dsimp only
  split <;> rfl

theorem fixHardcodedConfigsE_packageJson (fW : String → Bool) (t : Tree) (a : Analysis) :
    (fixHardcodedConfigsE fW t a).1.packageJson = t.packageJson := by
  unfold fixHardcodedConfigsE
  dsimp only
  split
  · rfl
  · split
    · rfl
    · exact writeFile_packageJson t _ _

theorem createStartupScriptE_nodejs_nofail (t : Tree) (a : Analysis)
    (h : a.projectType.primary = "nodejs") :
    createStartupScriptE (fun _ => false) t a =
      (writeFile t "start.sh" nodeStartTemplate,
       ["Created Node.js startup script"], false) := by
  unfold createStartupScriptE
  rw [if_pos h]
  rfl

/-- C6 counterexample: with a failing `.env` write on the minimal Node tree,
`apply_fixes` returns `False` without raising, but the startup-script rule
(and its ledger entry) never runs, contradicting "every remaining rule
application still runs". -/
theorem c6_env_write_failure_cx :
    (applyFixesE (fun _ => false) (fun p => p == ".env") [] tree0 (analyze tree0)).1 = false ∧
    hasFile (applyFixesE (fun _ => false) (fun p => p == ".env") [] tree0
        (analyze tree0)).2.1 "start.sh" = false ∧
    ¬ ("Created Node.js startup script" ∈
        (applyFixesE (fun _ => false) (fun p => p == ".env") [] tree0 (analyze tree0)).2.2) := by
  decide

/-- C6 (corrected): failure semantics of `apply_fixes`.  A write failure in
the unguarded env-file rule aborts the remaining rules (the startup script is
never written); the top-level handler absorbs the exception and the call
returns `False` instead of raising.  A read failure in the locally guarded
`package.json` step is caught and skipped: the manifest stays untouched and
every remaining rule still runs (the startup script does get written). -/
theorem c6_failure_semantics :
    (∀ (t : Tree) (a : Analysis), a.projectType.primary = "nodejs" →
      a.environmentFiles = [] → hasFile t "start.sh" = false →
      (applyFixesE (fun _ => false) (fun p => p == ".env") [] t a).1 = false ∧
      hasFile (applyFixesE (fun _ => false) (fun p => p == ".env") [] t a).2.1
        "start.sh" = false) ∧
    (∀ (t : Tree) (a : Analysis), a.projectType.primary = "nodejs" →
      hasFile (applyFixesE (fun p => p == "package.json") (fun _ => false) [] t a).2.1
        "start.sh" = true ∧
      (applyFixesE (fun p => p == "package.json") (fun _ => false) [] t a).2.1.packageJson =
        t.packageJson) := by
  constructor
  · intro t a hprim henv hsh
    unfold applyFixesE
    dsimp only
    rw [if_pos hprim]
    dsimp only
    rw [if_neg (by decide : ¬ (false = true))]
    rw [fixEnvironmentConfigE_err _ a henv]
    dsimp only
    rw [if_pos rfl]
    refine ⟨rfl, ?_⟩
    rw [hasFile_fixPortBindingE]
    exact fixNodejsIssuesE_hasFile _ _ t _ hsh
  · intro t a hprim
    unfold applyFixesE
    dsimp only
    rw [if_pos hprim]
    dsimp only
    rw [if_neg (by decide : ¬ (false = true))]
    rw [fixEnvironmentConfigE_noerr]
    rw [if_neg (by decide : ¬ (false = true))]
    rw [fixHardcodedConfigsE_noerr]
    rw [if_neg (by decide : ¬ (false = true))]
    rw [createStartupScriptE_nodejs_nofail _ a hprim]
    dsimp only
    rw [if_neg (by decide : ¬ (false = true))]
    constructor
    · rw [hasFile_writeFile]
      simp
    · rw [writeFile_packageJson, fixHardcodedConfigsE_packageJson,
          fixEnvironmentConfigE_packageJson, fixPortBindingE_packageJson]
      exact fixNodejsIssuesE_packageJson_readfail _ _ t rfl

/-- C6 witness: both failure-semantics parts instantiated on the minimal Node
tree. -/
theorem c6_failure_semantics_witness :
    ((applyFixesE (fun _ => false) (fun p => p == ".env") [] tree0 (analyze tree0)).1 = false ∧
     hasFile (applyFixesE (fun _ => false) (fun p => p == ".env") [] tree0
        (analyze tree0)).2.1 "start.sh" = false) ∧
    (hasFile (applyFixesE (fun p => p == "package.json") (fun _ => false) [] tree0
        (analyze tree0)).2.1 "start.sh" = true ∧
     (applyFixesE (fun p => p == "package.json") (fun _ => false) [] tree0
        (analyze tree0)).2.1.packageJson = tree0.packageJson) :=
  ⟨c6_failure_semantics.1 tree0 (analyze tree0) (by decide) (by decide) (by decide),
   c6_failure_semantics.2 tree0 (analyze tree0) (by decide)⟩

end Bilman
